import Mathlib

/-!
Shallow embedding of `turbustat/statistics/base_statistic.py`
(`BaseStatisticMixIn`): validated attribute storage for a header, a data
array and a distance, plus pixel / angle / physical-distance unit
equivalencies derived from the header's plate scale (`CDELT2`).

Numeric model: every float that appears in the code is a product
`q * pi ^ k` of a rational and an integer power of pi (`PiRat`); this is
exact and closed under the multiplications and divisions the code
performs (degree and parsec scale factors contain pi).  Python floats are
thus modelled exactly, which is sound for every claim stated "within
floating-point tolerance".

Error model: each `raise` site of the code is mapped to the abstract
error kind the specification's taxonomy assigns to it (`TypeKind`,
`UnitKind`, `ShapeKind`, `AttributeKind`, `LookupKind`); fallible
operations return `Except ErrKind`.
-/

set_option autoImplicit false

/-- The specification's error taxonomy.  `TypeKind` covers Python
`TypeError` raised for a wrong runtime type (including subscripting
`None`), `UnitKind` covers `UnitConversionError`, `ShapeKind` the
non-scalar-distance `TypeError`, `AttributeKind` Python's
`AttributeError` on a never-assigned attribute, `LookupKind` a `KeyError`
on a missing header key, `LoaderKind` errors of the external loader. -/
inductive ErrKind where
  | TypeKind
  | UnitKind
  | ShapeKind
  | AttributeKind
  | LookupKind
  | LoaderKind
deriving DecidableEq, Repr

instance {ε α : Type} [DecidableEq ε] [DecidableEq α] : DecidableEq (Except ε α) := fun x y =>
  match x, y with
  | .ok a, .ok b =>
      if h : a = b then isTrue (by rw [h]) else isFalse (fun hh => by cases hh; exact h rfl)
  | .error a, .error b =>
      if h : a = b then isTrue (by rw [h]) else isFalse (fun hh => by cases hh; exact h rfl)
  | .ok _, .error _ => isFalse (fun hh => by cases hh)
  | .error _, .ok _ => isFalse (fun hh => by cases hh)

/-- An exact real number of the form `q * pi ^ k`.  All floats handled by
the code (header values, unit scale factors, quantity values) have this
form. -/
structure PiRat where
  q : ℚ
  k : ℤ
deriving DecidableEq, Repr

/-- Canonical representative: zero is always `⟨0, 0⟩`. -/
def PiRat.norm (a : PiRat) : PiRat :=
  if a.q = 0 then ⟨0, 0⟩ else a

/-- `a` is already in canonical form. -/
def PiRat.normalized (a : PiRat) : Prop := a.q = 0 → a = ⟨0, 0⟩

instance (a : PiRat) : Decidable a.normalized := by
  unfold PiRat.normalized; infer_instance

def PiRat.mul (a b : PiRat) : PiRat := PiRat.norm ⟨a.q * b.q, a.k + b.k⟩

def PiRat.div (a b : PiRat) : PiRat := PiRat.norm ⟨a.q / b.q, a.k - b.k⟩

def PiRat.one : PiRat := ⟨1, 0⟩

/-- Dimension vector of a unit: exponents of length, time, angle and
pixel. -/
structure Dim where
  len : ℤ
  time : ℤ
  ang : ℤ
  pixel : ℤ
deriving DecidableEq, Repr

def Dim.mul (a b : Dim) : Dim :=
  ⟨a.len + b.len, a.time + b.time, a.ang + b.ang, a.pixel + b.pixel⟩

/-- A unit: a dimension vector and an exact scale factor to the base
units (metre, second, radian, pixel). -/
structure UnitC where
  dim : Dim
  scale : PiRat
deriving DecidableEq, Repr

def UnitC.mul (a b : UnitC) : UnitC := ⟨a.dim.mul b.dim, a.scale.mul b.scale⟩

/-- `astropy`'s `Unit.is_equivalent`: same dimension vector. -/
def UnitC.isEquivalent (a b : UnitC) : Bool := decide (a.dim = b.dim)

def pixU : UnitC := ⟨⟨0, 0, 0, 1⟩, ⟨1, 0⟩⟩

/-- Degree: `pi / 180` radians. -/
def degU : UnitC := ⟨⟨0, 0, 1, 0⟩, ⟨1 / 180, 1⟩⟩

def radU : UnitC := ⟨⟨0, 0, 1, 0⟩, ⟨1, 0⟩⟩

def meterU : UnitC := ⟨⟨1, 0, 0, 0⟩, ⟨1, 0⟩⟩

/-- Parsec: `648000 / pi` astronomical units of `149597870700` metres. -/
def pcU : UnitC := ⟨⟨1, 0, 0, 0⟩, ⟨96939420213600000, -1⟩⟩

def secondU : UnitC := ⟨⟨0, 1, 0, 0⟩, ⟨1, 0⟩⟩

/-- Value of a quantity: a scalar or a numpy-style array. -/
inductive QVal where
  | scalar (x : PiRat)
  | arr (xs : List PiRat)
deriving DecidableEq, Repr

def QVal.map (f : PiRat → PiRat) : QVal → QVal
  | .scalar x => .scalar (f x)
  | .arr xs => .arr (xs.map f)

/-- Apply a fallible function to every element, failing on the first
error (numpy-style elementwise application). -/
def listMapE (f : PiRat → Except ErrKind PiRat) : List PiRat → Except ErrKind (List PiRat)
  | [] => .ok []
  | x :: xs => do
      let y ← f x
      let ys ← listMapE f xs
      .ok (y :: ys)

def QVal.mapE (f : PiRat → Except ErrKind PiRat) : QVal → Except ErrKind QVal
  | .scalar x => (f x).map .scalar
  | .arr xs => (listMapE f xs).map .arr

/-- Every number held by the value is in canonical form. -/
def QVal.normalized : QVal → Prop
  | .scalar x => x.normalized
  | .arr xs => ∀ x ∈ xs, x.normalized

/-- An `astropy.units.Quantity`: a value with a unit. -/
structure Quantity where
  val : QVal
  unit : UnitC
deriving DecidableEq, Repr

/-- `Quantity.isscalar`. -/
def Quantity.isscalar (q : Quantity) : Bool :=
  match q.val with
  | .scalar _ => true
  | .arr _ => false

/-- `float(q.value)` of a scalar quantity (array quantities never reach
this in the code; the `arr` branch is dead). -/
def Quantity.floatValue (q : Quantity) : PiRat :=
  match q.val with
  | .scalar x => x
  | .arr _ => ⟨0, 0⟩

def Quantity.qmul (a b : Quantity) : Quantity :=
  ⟨match a.val, b.val with
    | .scalar x, .scalar y => .scalar (x.mul y)
    | .scalar x, .arr ys => .arr (ys.map fun y => x.mul y)
    | .arr xs, .scalar y => .arr (xs.map fun x => x.mul y)
    | .arr xs, .arr ys => .arr (List.zipWith PiRat.mul xs ys),
   a.unit.mul b.unit⟩

/-- One astropy equivalency tuple `(a, b, forward, backward)`; the two
conversion functions may fail when applied because the Python lambdas
read `self.ang_size` only at call time. -/
structure EquivRule where
  a : UnitC
  b : UnitC
  fwd : PiRat → Except ErrKind PiRat
  bwd : PiRat → Except ErrKind PiRat

/-- Scale ratio used by a plain (dimension-preserving) unit conversion. -/
def convFactor (src tgt : UnitC) : PiRat := src.scale.div tgt.scale

/-- `Quantity.to(tgt, equivalencies=eqs)`: a direct conversion when the
dimensions agree, otherwise the first applicable equivalency rule
(convert to the rule's unit, apply its function, convert onward); when no
route exists the conversion fails with a `UnitConversionError`. -/
def Quantity.to (qn : Quantity) (tgt : UnitC) (eqs : List EquivRule) :
    Except ErrKind Quantity :=
  if qn.unit.isEquivalent tgt then
    .ok ⟨qn.val.map (fun x => x.mul (convFactor qn.unit tgt)), tgt⟩
  else
    match eqs.find? (fun r =>
        (qn.unit.isEquivalent r.a && tgt.isEquivalent r.b) ||
        (qn.unit.isEquivalent r.b && tgt.isEquivalent r.a)) with
    | some r =>
        if qn.unit.isEquivalent r.a && tgt.isEquivalent r.b then do
          let v ← (qn.val.map (fun x => x.mul (convFactor qn.unit r.a))).mapE r.fwd
          .ok ⟨v.map (fun x => x.mul (convFactor r.b tgt)), tgt⟩
        else do
          let v ← (qn.val.map (fun x => x.mul (convFactor qn.unit r.b))).mapE r.bwd
          .ok ⟨v.map (fun x => x.mul (convFactor r.a tgt)), tgt⟩
    | none => .error .UnitKind

/-- `Quantity.to(tgt, equivalencies=u.dimensionless_angles())`: radians
count as dimensionless, so the conversion succeeds whenever the
dimensions agree after discarding the angle exponent; the scale ratio
(which carries the angle units' powers of pi) is applied as usual. -/
def Quantity.toDimless (qn : Quantity) (tgt : UnitC) : Except ErrKind Quantity :=
  if ⟨qn.unit.dim.len, qn.unit.dim.time, 0, qn.unit.dim.pixel⟩ =
      (⟨tgt.dim.len, tgt.dim.time, 0, tgt.dim.pixel⟩ : Dim) then
    .ok ⟨qn.val.map (fun x => x.mul (convFactor qn.unit tgt)), tgt⟩
  else .error .UnitKind

/-- A FITS header: an ordered mapping from keys to (rational) values. -/
abbrev Header := List (String × ℚ)

/-- A numpy data array. -/
abbrev DataArray := List ℚ

/-- The universe of Python values the setters can receive. -/
inductive PyValue where
  | quantity (q : Quantity)
  | ndarray (a : DataArray)
  | hdr (h : Header)
  | pyNone
  | other (tag : String)
deriving DecidableEq, Repr

/-- The mutable state of a `BaseStatisticMixIn` instance.  A stored
attribute is `none` while it has never been assigned (reading it then
raises `AttributeError`); header and data may legitimately hold `none`
(Python `None`) after assignment when the corresponding flag disables
them. -/
structure BaseStatisticMixIn where
  need_header_flag : Bool := true
  no_data_flag : Bool := false
  hdrStore : Option (Option Header) := none
  dataStore : Option (Option DataArray) := none
  distStore : Option Quantity := none
deriving DecidableEq, Repr

/-- A freshly constructed instance with the class-level flag defaults. -/
def mkInstance : BaseStatisticMixIn := {}

/-- `header` property getter: `return self._header`. -/
def headerGet (s : BaseStatisticMixIn) : Except ErrKind (Option Header) :=
  match s.hdrStore with
  | none => .error .AttributeKind
  | some h => .ok h

/-- `header` property setter: a disabled `need_header_flag` silently
stores `None`; otherwise a non-`Header` value raises `TypeError`. -/
def headerSet (s : BaseStatisticMixIn) (input_hdr : PyValue) :
    Except ErrKind BaseStatisticMixIn :=
  if s.need_header_flag = false then
    .ok { s with hdrStore := some none }
  else
    match input_hdr with
    | .hdr h => .ok { s with hdrStore := some (some h) }
    | _ => .error .TypeKind

/-- `data` property getter: `return self._data`. -/
def dataGet (s : BaseStatisticMixIn) : Except ErrKind (Option DataArray) :=
  match s.dataStore with
  | none => .error .AttributeKind
  | some d => .ok d

/-- `data` property setter: an enabled `no_data_flag` silently stores
`None`; otherwise a non-`ndarray` value raises `TypeError`. -/
def dataSet (s : BaseStatisticMixIn) (values : PyValue) :
    Except ErrKind BaseStatisticMixIn :=
  if s.no_data_flag = true then
    .ok { s with dataStore := some none }
  else
    match values with
    | .ndarray a => .ok { s with dataStore := some (some a) }
    | _ => .error .TypeKind

/-- `distance` property getter: `return self._distance`. -/
def distanceGet (s : BaseStatisticMixIn) : Except ErrKind Quantity :=
  match s.distStore with
  | none => .error .AttributeKind
  | some q => .ok q

/-- `distance` property setter: checks, in order, that the value is a
`Quantity` (`TypeError`), that its unit is length-equivalent
(`UnitConversionError`), and that it is scalar (`TypeError`, classified
`ShapeKind` by the taxonomy); the units given are kept. -/
def distanceSet (s : BaseStatisticMixIn) (value : PyValue) :
    Except ErrKind BaseStatisticMixIn :=
  match value with
  | .quantity q =>
      if q.unit.isEquivalent pcU = false then .error .UnitKind
      else if q.isscalar = false then .error .ShapeKind
      else .ok { s with distStore := some q }
  | _ => .error .TypeKind

/-- `ang_size`: `np.abs(self.header["CDELT2"]) * u.deg`.  Reading the
header before assignment raises `AttributeError`; subscripting a `None`
header raises `TypeError`; a missing key raises `KeyError`. -/
def ang_size (s : BaseStatisticMixIn) : Except ErrKind Quantity := do
  let hOpt ← headerGet s
  match hOpt with
  | none => .error .TypeKind
  | some h =>
      match h.lookup "CDELT2" with
      | none => .error .LookupKind
      | some c => .ok ⟨.scalar ⟨|c|, 0⟩, degU⟩

/-- `angular_equiv`: builds the pixel/degree equivalency tuple.  The two
lambdas capture `self` and read `ang_size` only when called, so building
the list itself never touches the header. -/
def angular_equiv (s : BaseStatisticMixIn) : List EquivRule :=
  [{ a := pixU, b := degU,
     fwd := fun x => do
       let a ← ang_size s
       .ok (x.mul a.floatValue),
     bwd := fun x => do
       let a ← ang_size s
       .ok (x.div a.floatValue) }]

/-- `to_pixel(value)`: requires a `Quantity`, then converts to pixels
through the conversion graph augmented with `angular_equiv`. -/
def to_pixel (s : BaseStatisticMixIn) (value : PyValue) : Except ErrKind Quantity :=
  match value with
  | .quantity q => q.to pixU (angular_equiv s)
  | _ => .error .TypeKind

/-- `distance_size`: `(self.ang_size * self.distance).to(self.distance.unit,
equivalencies=u.dimensionless_angles())`. -/
def distance_size (s : BaseStatisticMixIn) : Except ErrKind Quantity := do
  let a ← ang_size s
  let d ← distanceGet s
  (a.qmul d).toDimless d.unit

/-- A source handed to the loader: either a combined object carrying an
embedded header, or a bare array. -/
inductive Source where
  | combined (arrv : DataArray) (h : Header)
  | bare (arrv : DataArray)
deriving DecidableEq, Repr

/-- Modelled from the spec: the external loader `input_data` (module
`turbustat.io`, not part of this subsystem's sources) returns the data
array and, unless `no_header` instructs it to skip header extraction,
the embedded header; a bare array carries no header to extract, and
loader failures are `LoaderKind`. -/
def input_data (source : Source) (no_header : Bool) :
    Except ErrKind (DataArray × Option Header) :=
  match source, no_header with
  | .combined a h, false => .ok (a, some h)
  | .combined a _, true => .ok (a, none)
  | .bare a, true => .ok (a, none)
  | .bare _, false => .error .LoaderKind

/-- `input_data_header(data, header)`: with a separately supplied header
the loader is told to skip header extraction and the supplied header is
stored; otherwise the loader's pair is stored. -/
def input_data_header (s : BaseStatisticMixIn) (data : Source)
    (header : Option Header) : Except ErrKind BaseStatisticMixIn :=
  match header with
  | some h => do
      let r ← input_data data true
      let s1 ← dataSet s (.ndarray r.1)
      headerSet s1 (.hdr h)
  | none => do
      let r ← input_data data false
      let s1 ← dataSet s (.ndarray r.1)
      match r.2 with
      | some h => headerSet s1 (.hdr h)
      | none => headerSet s1 .pyNone

/-! ## Helper lemmas on the numeric model -/

theorem PiRat.norm_normalized (a : PiRat) : a.norm.normalized := by
  unfold PiRat.norm PiRat.normalized
  split
  · intro _; rfl
  · intro h; exact absurd h ‹¬ a.q = 0›

theorem PiRat.norm_eq_self (a : PiRat) (ha : a.normalized) : a.norm = a := by
  unfold PiRat.norm
  split
  · exact (ha ‹a.q = 0›).symm
  · rfl

theorem PiRat.mul_normalized (a b : PiRat) : (a.mul b).normalized :=
  PiRat.norm_normalized _

theorem PiRat.mul_one_right (a : PiRat) (ha : a.normalized) : a.mul PiRat.one = a := by
  unfold PiRat.mul PiRat.one
  have : (⟨a.q * 1, a.k + 0⟩ : PiRat) = a := by cases a; simp
  rw [this]
  exact PiRat.norm_eq_self a ha

theorem PiRat.mul_div_cancel_right (a b : PiRat) (ha : a.normalized) (hb : b.q ≠ 0) :
    (a.mul b).div b = a := by
  unfold PiRat.mul PiRat.div PiRat.norm
  by_cases h0 : a.q = 0
  · have haz : a = ⟨0, 0⟩ := ha h0
    subst haz
    simp [hb]
  · have hab : a.q * b.q ≠ 0 := mul_ne_zero h0 hb
    simp only [hab, if_false]
    have hq : a.q * b.q / b.q = a.q := by field_simp
    have hk : a.k + b.k - b.k = a.k := by ring
    simp [hq, hk, h0]

theorem listMapE_ok (g : PiRat → PiRat) (xs : List PiRat) :
    listMapE (fun x => Except.ok (g x)) xs = .ok (xs.map g) := by
  induction xs with
  | nil => rfl
  | cons y ys ih => simp [listMapE, ih, List.map_cons, Bind.bind, Except.bind]

theorem QVal.mapE_ok (g : PiRat → PiRat) (v : QVal) :
    QVal.mapE (fun x => Except.ok (g x)) v = .ok (v.map g) := by
  cases v with
  | scalar x => rfl
  | arr xs => simp [QVal.mapE, QVal.map, listMapE_ok, Except.map]

theorem QVal.map_map (f g : PiRat → PiRat) (v : QVal) :
    (v.map f).map g = v.map (fun x => g (f x)) := by
  cases v with
  | scalar x => rfl
  | arr xs => simp [QVal.map]

theorem listMap_congr_norm (f g : PiRat → PiRat)
    (hfg : ∀ x : PiRat, x.normalized → f x = g x) :
    ∀ xs : List PiRat, (∀ x ∈ xs, x.normalized) → xs.map f = xs.map g
  | [], _ => rfl
  | y :: ys, hv => by
      have hy : y.normalized := hv y (by simp)
      have hys : ∀ x ∈ ys, x.normalized := fun x hx => hv x (by simp [hx])
      simp [hfg y hy, listMap_congr_norm f g hfg ys hys]

theorem listMap_id_norm (f : PiRat → PiRat)
    (hf : ∀ x : PiRat, x.normalized → f x = x) :
    ∀ xs : List PiRat, (∀ x ∈ xs, x.normalized) → xs.map f = xs
  | [], _ => rfl
  | y :: ys, hv => by
      have hy : y.normalized := hv y (by simp)
      have hys : ∀ x ∈ ys, x.normalized := fun x hx => hv x (by simp [hx])
      simp [hf y hy, listMap_id_norm f hf ys hys]

theorem QVal.map_congr_norm (f g : PiRat → PiRat) (v : QVal) (hv : v.normalized)
    (hfg : ∀ x : PiRat, x.normalized → f x = g x) : v.map f = v.map g := by
  cases v with
  | scalar x => simp [QVal.map, hfg x hv]
  | arr xs => simp [QVal.map, listMap_congr_norm f g hfg xs hv]

theorem QVal.map_id_norm (f : PiRat → PiRat) (v : QVal) (hv : v.normalized)
    (hf : ∀ x : PiRat, x.normalized → f x = x) : v.map f = v := by
  cases v with
  | scalar x => simp [QVal.map, hf x hv]
  | arr xs => simp [QVal.map, listMap_id_norm f hf xs hv]

/-! ## Claim theorems -/

/-- C5: assigning the header attribute stores null regardless of the
value when `need_header_flag` is disabled; when it is enabled, a genuine
`Header` instance is stored as given (and the getter returns it) and any
other value fails with a `TypeKind` error. -/
theorem headerSet_spec (s : BaseStatisticMixIn) (v : PyValue) :
    (s.need_header_flag = false → headerSet s v = .ok { s with hdrStore := some none }) ∧
    (s.need_header_flag = true →
      (∀ h, v = .hdr h →
        headerSet s v = .ok { s with hdrStore := some (some h) } ∧
        headerGet { s with hdrStore := some (some h) } = .ok (some h)) ∧
      ((∀ h, v ≠ .hdr h) → headerSet s v = .error .TypeKind)) := by
  refine ⟨fun hf => ?_, fun hf => ⟨fun h hv => ?_, fun hv => ?_⟩⟩
  · simp [headerSet, hf]
  · subst hv; simp [headerSet, headerGet, hf]
  · cases v <;> simp_all [headerSet, hf]

/-- Witness for C5 at concrete inputs. -/
theorem headerSet_spec_witness :
    headerSet { mkInstance with need_header_flag := false } (.other "junk") =
      .ok { mkInstance with need_header_flag := false, hdrStore := some none } :=
  (headerSet_spec { mkInstance with need_header_flag := false } (.other "junk")).1 rfl

/-- C6: assigning the data attribute stores null regardless of the value
when `no_data_flag` is enabled; otherwise an array value is stored as
given and the getter returns it, and any non-array value fails with a
`TypeKind` error. -/
theorem dataSet_spec (s : BaseStatisticMixIn) (v : PyValue) :
    (s.no_data_flag = true → dataSet s v = .ok { s with dataStore := some none }) ∧
    (s.no_data_flag = false →
      (∀ a, v = .ndarray a →
        dataSet s v = .ok { s with dataStore := some (some a) } ∧
        dataGet { s with dataStore := some (some a) } = .ok (some a)) ∧
      ((∀ a, v ≠ .ndarray a) → dataSet s v = .error .TypeKind)) := by
  refine ⟨fun hf => ?_, fun hf => ⟨fun a hv => ?_, fun hv => ?_⟩⟩
  · simp [dataSet, hf]
  · subst hv; simp [dataSet, dataGet, hf]
  · cases v <;> simp_all [dataSet, hf]

/-- Witness for C6 at concrete inputs. -/
theorem dataSet_spec_witness :
    dataSet mkInstance (.ndarray [1, 2, 3]) =
      .ok { mkInstance with dataStore := some (some [1, 2, 3]) } ∧
    dataGet { mkInstance with dataStore := some (some [1, 2, 3]) } = .ok (some [1, 2, 3]) :=
  ((dataSet_spec mkInstance (.ndarray [1, 2, 3])).2 rfl).1 [1, 2, 3] rfl

/-- C9: reading the distance attribute before it has ever been set fails
with an `AttributeKind` error (in particular on a fresh instance), and
after a successful set the getter returns the stored quantity. -/
theorem distance_access_spec (s : BaseStatisticMixIn) :
    (s.distStore = none → distanceGet s = .error .AttributeKind) ∧
    (distanceGet mkInstance = .error .AttributeKind) ∧
    (∀ v s', distanceSet s v = .ok s' → ∃ q, v = .quantity q ∧ distanceGet s' = .ok q) := by
  refine ⟨fun hn => ?_, by decide, fun v s' hset => ?_⟩
  · simp [distanceGet, hn]
  · cases v with
    | quantity q =>
        refine ⟨q, rfl, ?_⟩
        unfold distanceSet at hset
        by_cases h1 : q.unit.isEquivalent pcU = false
        · simp [h1] at hset
        · by_cases h2 : q.isscalar = false
          · simp_all
          · simp_all
            subst hset
            simp [distanceGet]
    | ndarray a => simp [distanceSet] at hset
    | hdr h => simp [distanceSet] at hset
    | pyNone => simp [distanceSet] at hset
    | other t => simp [distanceSet] at hset

/-- Witness for C9 at concrete inputs. -/
theorem distance_access_spec_witness :
    distanceGet mkInstance = .error .AttributeKind ∧
    ∃ q, PyValue.quantity ⟨.scalar ⟨100, 0⟩, pcU⟩ = .quantity q ∧
      distanceGet { mkInstance with distStore := some ⟨.scalar ⟨100, 0⟩, pcU⟩ } = .ok q :=
  ⟨(distance_access_spec mkInstance).1 rfl,
   (distance_access_spec mkInstance).2.2 (.quantity ⟨.scalar ⟨100, 0⟩, pcU⟩)
     { mkInstance with distStore := some ⟨.scalar ⟨100, 0⟩, pcU⟩ } (by decide)⟩

/-- C7: the two resolution modes of `input_data_header` are equivalent:
resolving a combined source with no separate header ends in exactly the
same state as resolving the bare array with the same header supplied
explicitly. -/
theorem input_data_header_mode_equiv (s : BaseStatisticMixIn) (a : DataArray) (h : Header) :
    input_data_header s (.combined a h) none = input_data_header s (.bare a) (some h) := rfl

/-- C1 counterexample: an array-valued (non-scalar) Quantity with unit
seconds fails with `UnitKind`, not the `ShapeKind` error the claim
asserts for every non-scalar Quantity — the unit check runs before the
scalar check. -/
theorem distanceSet_nonscalar_counterexample :
    distanceSet mkInstance (.quantity ⟨.arr [⟨1, 0⟩, ⟨2, 0⟩], secondU⟩) =
      .error .UnitKind ∧
    distanceSet mkInstance (.quantity ⟨.arr [⟨1, 0⟩, ⟨2, 0⟩], secondU⟩) ≠
      .error .ShapeKind := by
  decide

/-- C1 (amended): setting the distance attribute fails with `TypeKind`
for every non-Quantity value, with `UnitKind` for every Quantity whose
unit is not dimensionally equivalent to length, with `ShapeKind` for
every non-scalar Quantity whose unit is length-equivalent, and for every
scalar length-dimensioned Quantity the assignment succeeds and the getter
returns it unchanged. -/
theorem distanceSet_spec (s : BaseStatisticMixIn) (v : PyValue) :
    ((∀ q, v ≠ .quantity q) → distanceSet s v = .error .TypeKind) ∧
    (∀ q, v = .quantity q →
      (q.unit.isEquivalent pcU = false → distanceSet s v = .error .UnitKind) ∧
      (q.unit.isEquivalent pcU = true → q.isscalar = false →
        distanceSet s v = .error .ShapeKind) ∧
      (q.unit.isEquivalent pcU = true → q.isscalar = true →
        distanceSet s v = .ok { s with distStore := some q } ∧
        distanceGet { s with distStore := some q } = .ok q)) := by
  refine ⟨fun hnq => ?_, fun q hv => ⟨fun hu => ?_, fun hu hs => ?_, fun hu hs => ?_⟩⟩
  · cases v <;> simp_all [distanceSet]
  · subst hv; simp [distanceSet, hu]
  · subst hv; simp [distanceSet, hu, hs]
  · subst hv; simp [distanceSet, distanceGet, hu, hs]

/-- Witness for C1's amended theorem at concrete inputs. -/
theorem distanceSet_spec_witness :
    distanceSet mkInstance (.quantity ⟨.scalar ⟨100, 0⟩, pcU⟩) =
      .ok { mkInstance with distStore := some ⟨.scalar ⟨100, 0⟩, pcU⟩ } ∧
    distanceGet { mkInstance with distStore := some ⟨.scalar ⟨100, 0⟩, pcU⟩ } =
      .ok ⟨.scalar ⟨100, 0⟩, pcU⟩ :=
  ((distanceSet_spec mkInstance (.quantity ⟨.scalar ⟨100, 0⟩, pcU⟩)).2
    ⟨.scalar ⟨100, 0⟩, pcU⟩ rfl).2.2 (by decide) (by decide)

/-- C3 counterexample: on an instance whose stored header is null,
`ang_size` fails with a `TypeKind` error (subscripting null), not the
key-lookup (`LookupKind`) error the claim asserts. -/
theorem ang_size_null_counterexample :
    ang_size { mkInstance with hdrStore := some none } = .error .TypeKind ∧
    ang_size { mkInstance with hdrStore := some none } ≠ .error .LookupKind := by
  decide

/-- C3 (amended): for every stored header containing the key `CDELT2`,
`ang_size` equals the absolute value of that key's value as a quantity in
degrees; for a stored header lacking the key it fails with a propagated
key-lookup (`LookupKind`) error; for a null stored header it fails with a
`TypeKind` error (subscripting null). -/
theorem ang_size_spec (s : BaseStatisticMixIn) :
    (∀ h c, s.hdrStore = some (some h) → h.lookup "CDELT2" = some c →
      ang_size s = .ok ⟨.scalar ⟨|c|, 0⟩, degU⟩) ∧
    (∀ h, s.hdrStore = some (some h) → h.lookup "CDELT2" = none →
      ang_size s = .error .LookupKind) ∧
    (s.hdrStore = some none → ang_size s = .error .TypeKind) := by
  refine ⟨fun h c hh hc => ?_, fun h hh hc => ?_, fun hh => ?_⟩
  · simp [ang_size, headerGet, hh, hc, Bind.bind, Except.bind]
  · simp [ang_size, headerGet, hh, hc, Bind.bind, Except.bind]
  · simp [ang_size, headerGet, hh, Bind.bind, Except.bind]

/-- Witness for C3's amended theorem at concrete inputs. -/
theorem ang_size_spec_witness :
    ang_size { mkInstance with hdrStore := some (some [("CDELT2", 1 / 100)]) } =
      .ok ⟨.scalar ⟨|(1 / 100 : ℚ)|, 0⟩, degU⟩ :=
  (ang_size_spec { mkInstance with hdrStore := some (some [("CDELT2", 1 / 100)]) }).1
    [("CDELT2", 1 / 100)] (1 / 100) rfl rfl

/-- Helper: `ang_size` on a header that contains `CDELT2`. -/
theorem ang_size_of_lookup (s : BaseStatisticMixIn) (h : Header) (c : ℚ)
    (hh : s.hdrStore = some (some h)) (hc : h.lookup "CDELT2" = some c) :
    ang_size s = .ok ⟨.scalar ⟨|c|, 0⟩, degU⟩ := by
  simp [ang_size, headerGet, hh, hc, Bind.bind, Except.bind]

/-- C10: constructing the angular equivalency never reads the header —
for every instance the property returns its single pixel/degree rule, and
whenever `ang_size` fails the failure surfaces only when one of the
rule's two conversion functions is applied. -/
theorem angular_equiv_lazy (s : BaseStatisticMixIn) (x : PiRat) :
    (∃ r, angular_equiv s = [r] ∧ r.a = pixU ∧ r.b = degU) ∧
    (∀ e, ang_size s = .error e →
      ∃ r, angular_equiv s = [r] ∧ r.fwd x = .error e ∧ r.bwd x = .error e) := by
  constructor
  · exact ⟨_, rfl, rfl, rfl⟩
  · intro e he
    refine ⟨_, rfl, ?_, ?_⟩ <;> simp [angular_equiv, he, Bind.bind, Except.bind]

/-- Witness for C10 at a concrete instance whose header lacks `CDELT2`. -/
theorem angular_equiv_lazy_witness :
    ∃ r, angular_equiv { mkInstance with hdrStore := some (some [("NAXIS", 2)]) } = [r] ∧
      r.fwd ⟨1, 0⟩ = .error .LookupKind ∧ r.bwd ⟨1, 0⟩ = .error .LookupKind :=
  (angular_equiv_lazy { mkInstance with hdrStore := some (some [("NAXIS", 2)]) }
    ⟨1, 0⟩).2 .LookupKind (by decide)

/-- Helper: converting a pixel-dimensioned quantity to degrees through
`angular_equiv` multiplies by the plate scale. -/
theorem quantity_to_deg_of_pixdim (s : BaseStatisticMixIn) (h : Header) (c : ℚ)
    (qn : Quantity) (hh : s.hdrStore = some (some h))
    (hc : h.lookup "CDELT2" = some c) (hp : qn.unit.dim = pixU.dim) :
    qn.to degU (angular_equiv s) =
      .ok ⟨qn.val.map (fun x =>
        ((x.mul (convFactor qn.unit pixU)).mul ⟨|c|, 0⟩).mul (convFactor degU degU)),
        degU⟩ := by
  have hang := ang_size_of_lookup s h c hh hc
  simp only [Quantity.to, angular_equiv, UnitC.isEquivalent, hp, hang, List.find?,
    Bind.bind, Except.bind, Quantity.floatValue]
  norm_num [pixU, degU, QVal.mapE_ok, QVal.map_map]

/-- Helper: converting a degree-dimensioned quantity to pixels through
`angular_equiv` divides by the plate scale. -/
theorem quantity_to_pix_of_degdim (s : BaseStatisticMixIn) (h : Header) (c : ℚ)
    (qn : Quantity) (hh : s.hdrStore = some (some h))
    (hc : h.lookup "CDELT2" = some c) (hd : qn.unit.dim = degU.dim) :
    qn.to pixU (angular_equiv s) =
      .ok ⟨qn.val.map (fun x =>
        ((x.mul (convFactor qn.unit degU)).div ⟨|c|, 0⟩).mul (convFactor pixU pixU)),
        pixU⟩ := by
  have hang := ang_size_of_lookup s h c hh hc
  simp only [Quantity.to, angular_equiv, UnitC.isEquivalent, hd, hang, List.find?,
    Bind.bind, Except.bind, Quantity.floatValue]
  norm_num [pixU, degU, QVal.mapE_ok, QVal.map_map]

/-- C8: `to_pixel` fails with `TypeKind` on every non-Quantity input;
for a Quantity whose unit is not convertible to pixels through the graph
augmented with the angular equivalency (neither pixel- nor
angle-dimensioned) it fails with `UnitKind`; a pixel-dimensioned input is
rescaled directly, and an angle-dimensioned input is converted to degrees
and divided by the plate scale, landing in pixel units. -/
theorem to_pixel_spec (s : BaseStatisticMixIn) :
    (∀ v, (∀ q, v ≠ .quantity q) → to_pixel s v = .error .TypeKind) ∧
    (∀ qn : Quantity, qn.unit.dim ≠ pixU.dim → qn.unit.dim ≠ degU.dim →
      to_pixel s (.quantity qn) = .error .UnitKind) ∧
    (∀ qn : Quantity, qn.unit.dim = pixU.dim →
      to_pixel s (.quantity qn) =
        .ok ⟨qn.val.map (fun x => x.mul (convFactor qn.unit pixU)), pixU⟩) ∧
    (∀ h c (qn : Quantity), s.hdrStore = some (some h) →
      h.lookup "CDELT2" = some c → qn.unit.dim = degU.dim →
      to_pixel s (.quantity qn) =
        .ok ⟨qn.val.map (fun x =>
          ((x.mul (convFactor qn.unit degU)).div ⟨|c|, 0⟩).mul (convFactor pixU pixU)),
          pixU⟩) := by
  refine ⟨fun v hnq => ?_, fun qn hp hd => ?_, fun qn hp => ?_, fun h c qn hh hc hd => ?_⟩
  · cases v <;> simp_all [to_pixel]
  · simp [to_pixel, Quantity.to, angular_equiv, UnitC.isEquivalent, hp, hd, List.find?]
  · simp [to_pixel, Quantity.to, UnitC.isEquivalent, hp]
  · exact quantity_to_pix_of_degdim s h c qn hh hc hd

/-- Witness for C8 at concrete inputs: 3 degrees with plate scale 1/2
degree per pixel becomes 6 pixels. -/
theorem to_pixel_spec_witness :
    to_pixel { mkInstance with hdrStore := some (some [("CDELT2", 1 / 2)]) }
        (.quantity ⟨.scalar ⟨3, 0⟩, degU⟩) =
      .ok ⟨(QVal.scalar ⟨3, 0⟩).map (fun x =>
        ((x.mul (convFactor degU degU)).div ⟨|(1 / 2 : ℚ)|, 0⟩).mul (convFactor pixU pixU)),
        pixU⟩ :=
  (to_pixel_spec { mkInstance with hdrStore := some (some [("CDELT2", 1 / 2)]) }).2.2.2
    [("CDELT2", 1 / 2)] (1 / 2) ⟨.scalar ⟨3, 0⟩, degU⟩ rfl rfl rfl

/-- C2: for every pixel quantity (scalar or array-valued, every entry in
canonical form) on an instance whose header has a nonzero plate scale,
converting to degrees through `angular_equiv` and then applying
`to_pixel` returns the original value exactly: division by `ang_size`
inverts multiplication by `ang_size`. -/
theorem to_pixel_roundtrip (s : BaseStatisticMixIn) (h : Header) (c : ℚ) (v : QVal)
    (hh : s.hdrStore = some (some h)) (hc : h.lookup "CDELT2" = some c)
    (hc0 : c ≠ 0) (hv : v.normalized) :
    ∃ p', Quantity.to ⟨v, pixU⟩ degU (angular_equiv s) = .ok p' ∧
      to_pixel s (.quantity p') = .ok ⟨v, pixU⟩ := by
  have hcf1 : convFactor pixU pixU = PiRat.one := by
    simp [convFactor, PiRat.div, PiRat.norm, PiRat.one, pixU]
  have hcf2 : convFactor degU degU = PiRat.one := by
    simp [convFactor, PiRat.div, PiRat.norm, PiRat.one, degU]
  have hcq : (⟨|c|, 0⟩ : PiRat).q ≠ 0 := by simpa using hc0
  refine ⟨⟨v.map (fun x => x.mul ⟨|c|, 0⟩), degU⟩, ?_, ?_⟩
  · rw [quantity_to_deg_of_pixdim s h c ⟨v, pixU⟩ hh hc rfl]
    have hmap : v.map (fun x =>
        ((x.mul (convFactor pixU pixU)).mul ⟨|c|, 0⟩).mul (convFactor degU degU)) =
        v.map (fun x => x.mul ⟨|c|, 0⟩) := by
      refine QVal.map_congr_norm _ _ v hv (fun x hx => ?_)
      rw [hcf1, hcf2, PiRat.mul_one_right x hx,
        PiRat.mul_one_right _ (PiRat.mul_normalized x ⟨|c|, 0⟩)]
    rw [hmap]
  · show Quantity.to ⟨v.map (fun x => x.mul ⟨|c|, 0⟩), degU⟩ pixU (angular_equiv s) =
      .ok ⟨v, pixU⟩
    rw [quantity_to_pix_of_degdim s h c ⟨v.map (fun x => x.mul ⟨|c|, 0⟩), degU⟩ hh hc rfl]
    have hmm := QVal.map_map (fun x => x.mul ⟨|c|, 0⟩)
      (fun x => ((x.mul (convFactor degU degU)).div ⟨|c|, 0⟩).mul (convFactor pixU pixU)) v
    rw [hmm]
    have hid : v.map (fun x =>
        (((x.mul ⟨|c|, 0⟩).mul (convFactor degU degU)).div ⟨|c|, 0⟩).mul
          (convFactor pixU pixU)) = v := by
      refine QVal.map_id_norm _ v hv (fun x hx => ?_)
      rw [hcf1, hcf2, PiRat.mul_one_right _ (PiRat.mul_normalized x ⟨|c|, 0⟩),
        PiRat.mul_div_cancel_right x ⟨|c|, 0⟩ hx hcq, PiRat.mul_one_right x hx]
    rw [hid]

/-- Witness for C2 at concrete inputs: the array of 3 and 5 pixels with
plate scale 1/2. -/
theorem to_pixel_roundtrip_witness :
    ∃ p', Quantity.to ⟨.arr [⟨3, 0⟩, ⟨5, 0⟩], pixU⟩ degU
        (angular_equiv { mkInstance with hdrStore := some (some [("CDELT2", 1 / 2)]) }) =
        .ok p' ∧
      to_pixel { mkInstance with hdrStore := some (some [("CDELT2", 1 / 2)]) }
        (.quantity p') = .ok ⟨.arr [⟨3, 0⟩, ⟨5, 0⟩], pixU⟩ :=
  to_pixel_roundtrip { mkInstance with hdrStore := some (some [("CDELT2", 1 / 2)]) }
    [("CDELT2", 1 / 2)] (1 / 2) (.arr [⟨3, 0⟩, ⟨5, 0⟩]) rfl rfl (by norm_num)
    (by intro x hx
        simp only [List.mem_cons, List.not_mem_nil, or_false] at hx
        rcases hx with h | h <;> subst h <;> intro hq <;> norm_num at hq)

/-- C4: with a header plate scale `c` and a stored scalar distance `dv`
in unit `dU`, `distance_size` is `ang_size * distance` re-expressed in
the distance's own unit by the dimensionless-angle equivalency: the
angle factor collapses to the pure number `|c| * pi / 180` (the plate
scale read as dimensionless radians), times the distance, in `dU`. -/
theorem distance_size_spec (s : BaseStatisticMixIn) (h : Header) (c : ℚ)
    (dv : PiRat) (dU : UnitC)
    (hh : s.hdrStore = some (some h)) (hc : h.lookup "CDELT2" = some c)
    (hd : s.distStore = some ⟨.scalar dv, dU⟩) (hsq : dU.scale.q ≠ 0) :
    distance_size s =
      .ok ⟨.scalar (((⟨|c|, 0⟩ : PiRat).mul dv).mul ⟨1 / 180, 1⟩), dU⟩ := by
  have hang := ang_size_of_lookup s h c hh hc
  have hdist : distanceGet s = .ok ⟨.scalar dv, dU⟩ := by simp [distanceGet, hd]
  have hcf : convFactor (degU.mul dU) dU = ⟨1 / 180, 1⟩ := by
    show ((degU.mul dU).scale).div dU.scale = _
    have hsc : (degU.mul dU).scale = (⟨1 / 180, 1⟩ : PiRat).mul dU.scale := rfl
    rw [hsc, PiRat.mul_div_cancel_right ⟨1 / 180, 1⟩ dU.scale
      (fun hq => absurd hq (by norm_num)) hsq]
  simp only [distance_size, hang, hdist, Bind.bind, Except.bind]
  have hq : (⟨.scalar ⟨|c|, 0⟩, degU⟩ : Quantity).qmul ⟨.scalar dv, dU⟩ =
      ⟨.scalar ((⟨|c|, 0⟩ : PiRat).mul dv), degU.mul dU⟩ := rfl
  have hcond : (⟨(degU.mul dU).dim.len, (degU.mul dU).dim.time, 0,
      (degU.mul dU).dim.pixel⟩ : Dim) = ⟨dU.dim.len, dU.dim.time, 0, dU.dim.pixel⟩ := by
    simp [UnitC.mul, Dim.mul, degU]
  rw [hq]
  unfold Quantity.toDimless
  rw [if_pos hcond]
  simp [QVal.map, hcf]

/-- Witness for C4 at the concrete inputs of the claim: plate scale
0.01 degrees per pixel and a distance of 100 parsecs. -/
theorem distance_size_spec_witness :
    distance_size { mkInstance with
        hdrStore := some (some [("CDELT2", 1 / 100)]),
        distStore := some ⟨.scalar ⟨100, 0⟩, pcU⟩ } =
      .ok ⟨.scalar (((⟨|(1 / 100 : ℚ)|, 0⟩ : PiRat).mul ⟨100, 0⟩).mul ⟨1 / 180, 1⟩), pcU⟩ :=
  distance_size_spec { mkInstance with
      hdrStore := some (some [("CDELT2", 1 / 100)]),
      distStore := some ⟨.scalar ⟨100, 0⟩, pcU⟩ }
    [("CDELT2", 1 / 100)] (1 / 100) ⟨100, 0⟩ pcU rfl rfl rfl (by norm_num [pcU])
